import Mathlib

/-!
Verification of the `glittergrove` world-boss raid engine
(`cogs/worldboss/…`: `energy.py`, `damage.py`, `shields.py`, `storage.py`,
`boss.py`) against its natural-language specification.

Conventions of the shallow embedding:
* Python `int`s become `ℤ` (or `ℕ` where the code guarantees non-negativity);
  timestamps (epoch seconds) are `ℤ`.
* Python `float` arithmetic is modelled by exact fractions (`Frac`, an
  unreduced `num/den` pair with positive denominator by construction);
  `int(x)` (truncation toward zero) is `Frac.pyInt`, and `round(x)`
  (round half to even) is `Frac.pyRound`.
* Dicts keyed by user id become association lists `List (String × ℤ)` with
  first-occurrence lookup/update, matching dict semantics (keys unique).
* `random.uniform(...)` outcomes and the current time `_now()` are explicit
  parameters of the embedded functions.
-/

/-- An exact fraction `num / den`; all fractions built by the embedding have
positive denominators.  This models Python float arithmetic exactly (every
float value and product of the code's constants is a rational). -/
structure Frac where
  num : ℤ
  den : ℤ
  deriving Repr, DecidableEq

def Frac.ofInt (n : ℤ) : Frac := ⟨n, 1⟩

def Frac.mul (a b : Frac) : Frac := ⟨a.num * b.num, a.den * b.den⟩

def Frac.add (a b : Frac) : Frac := ⟨a.num * b.den + b.num * a.den, a.den * b.den⟩

/-- `a ≤ b` as fractions (valid for positive denominators). -/
def Frac.ble (a b : Frac) : Bool := decide (a.num * b.den ≤ b.num * a.den)

/-- `a < b` as fractions (valid for positive denominators). -/
def Frac.blt (a b : Frac) : Bool := decide (a.num * b.den < b.num * a.den)

/-- Python `min(a, b)`: returns `a` unless `b` is strictly smaller. -/
def Frac.fmin (a b : Frac) : Frac := if Frac.ble a b then a else b

/-- Python `max(a, b)`: returns `a` unless `b` is strictly larger. -/
def Frac.fmax (a b : Frac) : Frac := if Frac.ble b a then a else b

/-- Python `int(q)` on a float: truncation toward zero. -/
def Frac.pyInt (a : Frac) : ℤ :=
  if Frac.blt a (Frac.ofInt 0) then -((-a.num).fdiv a.den) else a.num.fdiv a.den

/-- Python `round(q)` on a float: round half to even (banker's rounding).
`t = 2*(num - ⌊q⌋*den)` compares the fractional part against `1/2`. -/
def Frac.pyRound (a : Frac) : ℤ :=
  let f := a.num.fdiv a.den
  let t := 2 * (a.num - f * a.den)
  if t < a.den then f
  else if a.den < t then f + 1
  else if f % 2 = 0 then f else f + 1

/-! ## Energy ledger (`cogs/worldboss/energy.py`)

The per-player profile fields used by the ledger are `raid_energy`
(the stored value) and `raid_energy_ts` (the regen anchor, epoch seconds).
Constants from `settings.py`: `RAID_MAX = 5`, `RAID_REGEN_MIN = 20`. -/

def ENERGY_MAX : ℤ := 5

def ENERGY_REGEN_MINUTES : ℕ := 20

/-- The slice of a player profile the energy ledger reads and writes:
`raid_energy` and `raid_energy_ts` (regen anchor, epoch seconds). -/
structure EnergyProfile where
  energy : ℤ
  anchor : ℤ
  deriving Repr, DecidableEq

/-- `_materialize(uid)`: apply time-based regen and persist; return the
current energy together with the updated profile. -/
def _materialize (now : ℤ) (p : EnergyProfile) : ℤ × EnergyProfile :=
  let cur := p.energy
  if ENERGY_MAX ≤ cur then
    (min cur ENERGY_MAX, { p with anchor := now })
  else if (ENERGY_REGEN_MINUTES : ℤ) ≤ 0 then
    (cur, p)
  else if p.anchor ≤ 0 then
    (cur, { energy := cur, anchor := now })
  else
    -- elapsed_min = (max(0, _now() - last_ts)) // 60 ; ticks = elapsed_min // REGEN
    let elapsedMin : ℕ := (now - p.anchor).toNat / 60
    let ticks : ℕ := elapsedMin / ENERGY_REGEN_MINUTES
    if ticks = 0 then
      (cur, p)
    else
      let newVal := min ENERGY_MAX (cur + ticks)
      (newVal, { energy := newVal, anchor := p.anchor + (ticks : ℤ) * (ENERGY_REGEN_MINUTES : ℤ) * 60 })

/-- `_add_energy(uid, amount)`: materialize, then clamp-add and re-anchor. -/
def _add_energy (now : ℤ) (p : EnergyProfile) (amount : ℤ) : ℤ × EnergyProfile :=
  let m := _materialize now p
  if amount = 0 then m
  else
    let newVal := max 0 (min ENERGY_MAX (m.1 + amount))
    (newVal, { energy := newVal, anchor := now })

/-- `_spend_energy(uid, cost)`: materialize, then subtract if sufficient.
Returns `((ok, value), profile')`. -/
def _spend_energy (now : ℤ) (p : EnergyProfile) (cost : ℤ := 1) :
    (Bool × ℤ) × EnergyProfile :=
  let m := _materialize now p
  if m.1 < cost then ((false, m.1), m.2)
  else
    let newVal := max 0 (m.1 - cost)
    ((true, newVal), { energy := newVal, anchor := now })

example : _materialize 4900 ⟨1, 1000⟩ = (4, ⟨4, 4600⟩) := by decide
example : _spend_energy 190 ⟨3, 100⟩ 1 = ((true, 2), ⟨2, 190⟩) := by decide

/-- C4: the claim states that every energy-ledger operation advances the
regen anchor only by whole multiples of `REGEN_MINUTES` and never sets it to
the current wall-clock time.  Counterexample: spending 1 energy at `now = 190`
from the profile `{energy := 3, anchor := 100}` stores `anchor = 190` — the
current wall-clock time — and the advance of 90 seconds is not a multiple of
`ENERGY_REGEN_MINUTES * 60 = 1200` seconds. -/
theorem c4_counterexample :
    (_spend_energy 190 ⟨3, 100⟩ 1).2.anchor = 190 ∧
    ¬ (((ENERGY_REGEN_MINUTES : ℤ) * 60) ∣ ((_spend_energy 190 ⟨3, 100⟩ 1).2.anchor - 100)) := by
  refine ⟨by decide, ?_⟩
  intro h
  have h90 : (_spend_energy 190 ⟨3, 100⟩ 1).2.anchor - 100 = 90 := by decide
  rw [h90] at h
  obtain ⟨k, hk⟩ := h
  have h12 : (ENERGY_REGEN_MINUTES : ℤ) * 60 = 1200 := by decide
  rw [h12] at hk
  omega

/-- C4 (amended): only `_materialize`'s regen step advances the anchor by a
whole multiple of `REGEN_MINUTES` (crediting exactly that many ticks, so no
interval is double-counted); `_add_energy` (for nonzero amounts) and a
successful `_spend_energy` instead re-anchor to the current wall-clock time,
discarding any elapsed fraction of a regen interval. -/
theorem spec_c4 :
    (∀ (now : ℤ) (p : EnergyProfile), p.energy < ENERGY_MAX → 0 < p.anchor →
      ∃ k : ℕ, (_materialize now p).2.anchor = p.anchor + k * (ENERGY_REGEN_MINUTES * 60) ∧
        (_materialize now p).1 = min ENERGY_MAX (p.energy + k)) ∧
    (∀ (now : ℤ) (p : EnergyProfile) (amount : ℤ), amount ≠ 0 →
      (_add_energy now p amount).2.anchor = now) ∧
    (∀ (now : ℤ) (p : EnergyProfile) (cost : ℤ), (_spend_energy now p cost).1.1 = true →
      (_spend_energy now p cost).2.anchor = now) := by
  refine ⟨?_, ?_, ?_⟩
  · intro now p h1 h2
    simp only [ENERGY_MAX] at h1
    simp only [_materialize, ENERGY_MAX, ENERGY_REGEN_MINUTES, Int.toNat_ofNat]
    split_ifs with hmax hreg hanch hticks
    · exact absurd hmax (by omega)
    · exact absurd hreg (by norm_num)
    · exact absurd hanch (by omega)
    · exact ⟨0, by dsimp only; omega, by dsimp only; omega⟩
    · refine ⟨(now - p.anchor).toNat / 60 / 20, ?_, ?_⟩ <;> (dsimp only; try omega)
  · intro now p amount h
    simp only [_add_energy]
    rw [if_neg h]
  · intro now p cost h
    simp only [_spend_energy] at h ⊢
    split_ifs at h ⊢ with hc
    all_goals rfl

/-- C4 witness: the amended statement instantiated at concrete profiles. -/
theorem c4_witness :
    (∃ k : ℕ, (_materialize 4900 ⟨1, 1000⟩).2.anchor = 1000 + k * (ENERGY_REGEN_MINUTES * 60) ∧
      (_materialize 4900 ⟨1, 1000⟩).1 = min ENERGY_MAX (1 + k)) ∧
    (_add_energy 5 ⟨0, 0⟩ 2).2.anchor = 5 ∧
    (_spend_energy 7 ⟨3, 0⟩ 1).2.anchor = 7 :=
  ⟨spec_c4.1 4900 ⟨1, 1000⟩ (by decide) (by decide),
   spec_c4.2.1 5 ⟨0, 0⟩ 2 (by decide),
   spec_c4.2.2 7 ⟨3, 0⟩ 1 (by decide)⟩

/-- C5: with `MAX = 5` and `REGEN_MINUTES = 20`, `_materialize` on a profile
below the cap whose anchor is 65 minutes stale credits `65 // 20 = 3` whole
ticks — the value becomes `min 5 (current + 3)` — and advances the anchor by
exactly `3 * 20 = 60` minutes, not 65. -/
theorem spec_c5 (now : ℤ) (p : EnergyProfile)
    (h1 : p.energy < ENERGY_MAX) (h2 : 0 < p.anchor) (h3 : now = p.anchor + 65 * 60) :
    (_materialize now p).1 = min ENERGY_MAX (p.energy + 3) ∧
    (_materialize now p).2.energy = min ENERGY_MAX (p.energy + 3) ∧
    (_materialize now p).2.anchor = p.anchor + 60 * 60 := by
  subst h3
  simp only [ENERGY_MAX] at h1
  simp only [_materialize, ENERGY_MAX, ENERGY_REGEN_MINUTES, Int.toNat_ofNat]
  split_ifs with hmax hreg hanch hticks
  · exact absurd hmax (by omega)
  · exact absurd hreg (by norm_num)
  · exact absurd hanch (by omega)
  · exact absurd hticks (by omega)
  · refine ⟨?_, ?_, ?_⟩ <;> (dsimp only; omega)

/-- C5 witness: a profile with 1 energy and anchor 1000 materialized at
`now = 1000 + 3900`: value becomes `min 5 4 = 4`, anchor becomes `4600`. -/
theorem c5_witness :
    (_materialize 4900 ⟨1, 1000⟩).1 = min ENERGY_MAX (1 + 3) ∧
    (_materialize 4900 ⟨1, 1000⟩).2.energy = min ENERGY_MAX (1 + 3) ∧
    (_materialize 4900 ⟨1, 1000⟩).2.anchor = 1000 + 60 * 60 :=
  spec_c5 4900 ⟨1, 1000⟩ (by decide) (by decide) (by decide)

/-! ## Boss data model (`cogs/worldboss/…`, persisted in `data/boss.json`)

The boss document is a JSON dict; the in-memory state used by the damage,
shield and kill logic is modelled by the structures below.  The per-user
damage `tally` dict becomes an association list with unique keys;
`phase_images`-derived information is collapsed into the flag
`hasPhase2Image` (whether any of the keys `"2"/2/"phase2"/"p2"` is set,
which is all `boss_attack` inspects). -/

/-- The shield overlay dict (keys `type`, `name`, `hp`, `max_hp`, `expires`).
`hp` is kept as `ℤ` so non-negativity is a real property, and `expires` is an
epoch-second timestamp (`none` = missing/invalid, meaning no expiry). -/
structure Shield where
  typ : String
  name : String
  hp : ℤ
  max_hp : ℤ
  expires : Option ℤ
  deriving Repr, DecidableEq

/-- One entry of the bounded `last_actions` log. -/
structure BossAction where
  ts : ℤ
  user : String
  user_id : String
  faction : String
  dmg : ℤ
  effects : List String
  deriving Repr, DecidableEq

/-- The `buffs` dict: expiry timestamps under the keys `guard_break_until`
and `overbloom_until`. -/
structure BossBuffs where
  guard_break_until : Option ℤ
  overbloom_until : Option ℤ
  deriving Repr, DecidableEq

inductive BuffKey
  | guardBreak
  | overbloom
  deriving Repr, DecidableEq

def BossBuffs.get (bf : BossBuffs) : BuffKey → Option ℤ
  | .guardBreak => bf.guard_break_until
  | .overbloom => bf.overbloom_until

/-- In-memory boss state (the dict `b` flowing through `boss.py`). -/
structure Boss where
  name : String
  hp : ℤ
  max_hp : ℤ
  phase : ℕ
  weakness : String
  shield : Option Shield
  buffs : BossBuffs
  tally : List (String × ℤ)
  last_actions : List BossAction
  hasPhase2Image : Bool
  deriving Repr, DecidableEq

/-- `_buff_active(b, key)`: the stored expiry exists and `_now() < ts`. -/
def _buff_active (now : ℤ) (b : Boss) (key : BuffKey) : Bool :=
  match b.buffs.get key with
  | some t => decide (now < t)
  | none => false

/-- `_set_buff(b, key, seconds)`: store `now + seconds` under the key. -/
def _set_buff (now : ℤ) (b : Boss) (key : BuffKey) (seconds : ℤ) : Boss :=
  match key with
  | .guardBreak => { b with buffs := { b.buffs with guard_break_until := some (now + seconds) } }
  | .overbloom => { b with buffs := { b.buffs with overbloom_until := some (now + seconds) } }

/-- `_last_action(b)`: the most recent log entry, if any. -/
def _last_action (b : Boss) : Option BossAction :=
  b.last_actions.getLast?

/-! ## Shield system (`cogs/worldboss/shields.py`)

Settings defaults: `GILDED_SHATTER_BYPASS_PCT = 0.20`,
`THORNED_REND_BONUS_PCT = 0.15`. -/

def GILDED_SHATTER_BYPASS_PCT : Frac := ⟨20, 100⟩

def THORNED_REND_BONUS_PCT : Frac := ⟨15, 100⟩

/-- `_clamp01(x)`. -/
def _clamp01 (x : Frac) : Frac := Frac.fmax (Frac.ofInt 0) (Frac.fmin (Frac.ofInt 1) x)

/-- Boolean prefix test on character lists. -/
def isPrefixB : List Char → List Char → Bool
  | [], _ => true
  | _ :: _, [] => false
  | a :: as, b :: bs => a == b && isPrefixB as bs

/-- Boolean infix (substring) test on character lists. -/
def isInfixB (needle : List Char) : List Char → Bool
  | [] => isPrefixB needle []
  | c :: rest => isPrefixB needle (c :: rest) || isInfixB needle rest

/-- `any("crit" in str(e).lower() for e in effects)`. -/
def hasCritEffect (effects : List String) : Bool :=
  effects.any fun e => isInfixB (String.data ("crit")) ((String.data e).map Char.toLower)

/-- `_shield_active(b)`: return the shield if present, unexpired and with
positive hp; otherwise clear it on the boss and return none.  On success the
stored `max_hp` is normalized up to at least `hp`. -/
def _shield_active (now : ℤ) (b : Boss) : Option Shield × Boss :=
  match b.shield with
  | none => (none, { b with shield := none })
  | some s =>
    if (match s.expires with | some e => decide (e < now) | none => false) then
      (none, { b with shield := none })
    else if s.hp ≤ 0 then
      (none, { b with shield := none })
    else
      let s' := { s with max_hp := max s.hp s.max_hp }
      (some s', { b with shield := some s' })

/-- The numeric core of `_apply_shield` once an active shield `s` was found
(mitigation, shatter passthrough, absorption, rend, break detection). -/
structure ShieldHitResult where
  dmgToBoss : ℤ
  absorbed : ℤ
  newHp : ℤ
  broken : Bool
  effects : List String
  deriving Repr, DecidableEq

/-- Steps 1-6 of the shield application for an active shield. -/
def _shield_hit_core (s : Shield) (dmg0 : ℤ) (faction : String)
    (effects0 : List String) : ShieldHitResult :=
    let dmg₁ : ℤ := max 0 dmg0
    -- base penalties while the shield is up
    let step₂ : ℤ × List String :=
      if s.typ = "bramble" then
        if faction ≠ "verdant" then
          (Frac.pyInt (Frac.mul (Frac.ofInt dmg₁) ⟨5, 10⟩), effects0 ++ ["Bramble thorns −50%"])
        else (dmg₁, effects0 ++ ["Verdant cuts the brambles"])
      else if s.typ = "veil" then
        if faction ≠ "mistveil" then
          (Frac.pyInt (Frac.mul (Frac.ofInt dmg₁) ⟨6, 10⟩), effects0 ++ ["Veil dampens −40%"])
        else (dmg₁, effects0 ++ ["Mistveil pierces the veil"])
      else (dmg₁, effects0)
    let dmg₂ := step₂.1
    let effects₂ := step₂.2
    -- Gilded SHATTER passthrough on crit
    let passthrough : ℤ :=
      if faction = "gilded" ∧ hasCritEffect effects₂ then
        max 0 (Frac.pyRound (Frac.mul (Frac.ofInt dmg₂) (_clamp01 GILDED_SHATTER_BYPASS_PCT)))
      else 0
    let effects₃ :=
      if 0 < passthrough then effects₂ ++ ["Shatter passthrough +20%"] else effects₂
    let toShield : ℤ := max 0 (dmg₂ - passthrough)
    let sHpBefore : ℤ := max 0 s.hp
    let baseAbsorb : ℤ := min toShield sHpBefore
    -- Thorned REND: extra shield chew, no extra boss damage
    let extraChew : ℤ :=
      if faction = "thorned" ∧ 0 < baseAbsorb then
        Frac.pyRound (Frac.mul (Frac.ofInt baseAbsorb) (_clamp01 THORNED_REND_BONUS_PCT))
      else 0
    let effects₄ :=
      if faction = "thorned" ∧ 0 < baseAbsorb ∧ 0 < extraChew then
        effects₃ ++ ["Rend +15% vs shield"]
      else effects₃
    let totalAbsorb : ℤ := min sHpBefore (baseAbsorb + max 0 extraChew)
    let newShieldHp : ℤ := max 0 (sHpBefore - totalAbsorb)
    let leftover : ℤ := max 0 (toShield - baseAbsorb)
    let dmgToBoss : ℤ := passthrough + leftover
    let broken : Bool := decide (newShieldHp ≤ 0)
    let effects₅ :=
      if broken then effects₄ ++ ["Shield broken! (Guard Break 30s)"] else effects₄
    let effects₆ :=
      if 0 < baseAbsorb then effects₅ ++ ["Shield absorbed"] else effects₅
    { dmgToBoss := dmgToBoss, absorbed := totalAbsorb, newHp := newShieldHp,
      broken := broken, effects := effects₆ }

/-- The body of `_apply_shield` for an active shield: runs the numeric core,
stores the surviving shield (or clears it on break) and assembles the
returned tuple. -/
def _apply_shield_hit (b₁ : Boss) (s : Shield) (dmg0 : ℤ) (faction : String)
    (effects0 : List String) :
    (ℤ × Option String × ℤ × Bool) × Boss × List String :=
  let r := _shield_hit_core s dmg0 faction effects0
  ((r.dmgToBoss, some s.name, r.absorbed, r.broken),
   { b₁ with shield := if r.broken then none else some { s with hp := r.newHp } },
   r.effects)

/-- `_apply_shield(b, dmg, faction, effects)`.  Returns
`((damage_to_boss, shield_name, shield_hp_reduced_total, broken), b', effects')`;
the boss and effects list are returned instead of mutated in place. -/
def _apply_shield (now : ℤ) (b : Boss) (dmg0 : ℤ) (faction : String)
    (effects0 : List String) :
    (ℤ × Option String × ℤ × Bool) × Boss × List String :=
  match _shield_active now b with
  | (none, b₁) => ((max 0 dmg0, none, 0, false), b₁, effects0)
  | (some s, b₁) => _apply_shield_hit b₁ s dmg0 faction effects0

/-! ## Damage resolver (`cogs/worldboss/damage.py`)

Tunables (defaults; `settings.py` provides none of the `BASE_DMG_*` /
`MAX_HIT_*` names, so the `_get` fallbacks apply): `BASE_DMG_PCT = 0.008`,
`MAX_HIT_PCT = 0.035`, `MIN_HIT_ABS = 100`, `WEAKNESS_BONUS_PCT = 0.20`,
`MISTVEIL_AMBUSH_BONUS = 0.25`.  The `random.uniform(0.90, 1.10)` jitter is
an explicit parameter `u`, and the attacker's resolved faction slug is passed
directly (standing for `_faction_of(member)`). -/

def BASE_DMG_PCT : Frac := ⟨8, 1000⟩

def MAX_HIT_PCT : Frac := ⟨35, 1000⟩

def MIN_HIT_ABS : ℤ := 100

def WEAKNESS_BONUS_PCT : Frac := ⟨20, 100⟩

def MISTVEIL_AMBUSH_BONUS : Frac := ⟨25, 100⟩

/-- `_weakness_bonus_pct(b, faction)`. -/
def _weakness_bonus_pct (b : Boss) (faction : String) : Frac :=
  if b.weakness ≠ "" ∧ faction ≠ "" ∧ b.weakness = faction then WEAKNESS_BONUS_PCT
  else Frac.ofInt 0

/-- The per-hit cap `max(1, int(mx * MAX_HIT_PCT))` for scaling anchor `mx`. -/
def damageCap (mx : ℤ) : ℤ :=
  max 1 (Frac.pyInt (Frac.mul (Frac.ofInt mx) MAX_HIT_PCT))

/-- The scaling anchor: `max_hp`, else `hp`, else 1. -/
def damageAnchor (b : Boss) : ℤ :=
  if b.max_hp ≤ 0 then (if b.hp = 0 then 1 else b.hp) else b.max_hp

/-- Whether the Mistveil ambush condition fires: the most recent logged
action is by Thorned and at most 120 seconds old. -/
def ambushReady (now : ℤ) (b : Boss) : Bool :=
  match _last_action b with
  | some a => decide (a.faction = "thorned") && decide (now - a.ts ≤ 120)
  | none => false

/-- The pre-clamp damage roll of `compute_damage`: base percentage of the
scaling anchor, jittered by `u`, then the multiplicative bonuses in source
order (weakness, guard break, overbloom, thorned rend, mistveil ambush),
accumulating the effect labels. -/
def damageRoll (now : ℤ) (b : Boss) (faction : String) (u : Frac) :
    Frac × List String :=
  let mx : ℤ := damageAnchor b
  let base₀ : Frac := Frac.mul (Frac.mul (Frac.ofInt mx) BASE_DMG_PCT) u
  let wb : Frac := _weakness_bonus_pct b faction
  let step₁ : Frac × List String :=
    if Frac.blt (Frac.ofInt 0) wb then
      (Frac.mul base₀ (Frac.add (Frac.ofInt 1) wb), ["Weakness +20%"])
    else (base₀, [])
  let step₂ : Frac × List String :=
    if _buff_active now b .guardBreak then
      (Frac.mul step₁.1 ⟨115, 100⟩, step₁.2 ++ ["Guard Break +15%"])
    else step₁
  let step₃ : Frac × List String :=
    if _buff_active now b .overbloom then
      (Frac.mul step₂.1 ⟨110, 100⟩, step₂.2 ++ ["Overbloom +10%"])
    else step₂
  let step₄ : Frac × List String :=
    if faction = "thorned" then
      (Frac.mul step₃.1 (Frac.add (Frac.ofInt 1) THORNED_REND_BONUS_PCT),
       step₃.2 ++ ["Rend +15%"])
    else step₃
  if faction = "mistveil" ∧ ambushReady now b then
    (Frac.mul step₄.1 (Frac.add (Frac.ofInt 1) MISTVEIL_AMBUSH_BONUS),
     step₄.2 ++ ["Ambush +25% (after Thorned)"])
  else step₄

/-- `compute_damage(b, member)`: roll damage for a hit and list the textual
effects.  The roll is clamped as `int(max(MIN_HIT_ABS, min(base, max_cap)))`
with `max_cap = max(1, int(mx * MAX_HIT_PCT))`.  `u` is the sampled
`random.uniform(RAND_LOW, RAND_HIGH)` factor and `faction` the attacker's
resolved slug (`_faction_of(member)`). -/
def compute_damage (now : ℤ) (b : Boss) (faction : String) (u : Frac) :
    ℤ × List String :=
  let roll := damageRoll now b faction u
  let maxCap : ℤ := damageCap (damageAnchor b)
  (Frac.pyInt (Frac.fmax (Frac.ofInt MIN_HIT_ABS) (Frac.fmin roll.1 (Frac.ofInt maxCap))),
   roll.2)

/-- A bare boss with a given shield, used for concrete shield scenarios. -/
def brambleBoss (shp : ℤ) : Boss :=
  { name := "Boss", hp := 1000, max_hp := 1000, phase := 1, weakness := "",
    shield := some { typ := "bramble", name := "Bramble Shield", hp := shp,
                     max_hp := 80, expires := none },
    buffs := { guard_break_until := none, overbloom_until := none },
    tally := [], last_actions := [], hasPhase2Image := false }

example :
    (_apply_shield 0 (brambleBoss 80) 100 ("gilded") []).1 =
      (0, some ("Bramble Shield"), 50, false) := by decide
example :
    ((_apply_shield 0 (brambleBoss 80) 100 ("thorned") []).2.1.shield.map Shield.hp) =
      some 22 := by decide
example :
    (_apply_shield 0 (brambleBoss 10) 100 ("gilded") []).1 =
      (40, some ("Bramble Shield"), 10, true) := by decide

/-- A freshly spawned 1000-hp boss whose weakness is `gilded`, with no
shield, no buffs and an empty log: the C3 scenario. -/
def weaknessBoss : Boss :=
  { name := "Boss", hp := 1000, max_hp := 1000, phase := 1, weakness := "gilded",
    shield := none, buffs := { guard_break_until := none, overbloom_until := none },
    tally := [], last_actions := [], hasPhase2Image := false }

@[simp]
theorem Frac.ofInt_num (n : ℤ) : (Frac.ofInt n).num = n := rfl

@[simp]
theorem Frac.ofInt_den (n : ℤ) : (Frac.ofInt n).den = 1 := rfl

theorem Frac.pyInt_ofInt (n : ℤ) : Frac.pyInt (Frac.ofInt n) = n := by
  unfold Frac.pyInt Frac.blt Frac.ofInt
  split_ifs with h
  · simp [Int.fdiv_one]
  · simp [Int.fdiv_one]

theorem Frac.pyInt_of_nonneg (a : Frac) (hd : 0 < a.den) (hn : 0 ≤ a.num) :
    Frac.pyInt a = a.num / a.den := by
  unfold Frac.pyInt Frac.blt Frac.ofInt
  rw [if_neg, Int.fdiv_eq_ediv _ (le_of_lt hd)]
  simp only [decide_eq_true_eq, not_lt]
  nlinarith

/-- The clamp `int(max(lo, min(q, cap)))` lands in `[lo, max lo cap]` for any
fraction `q` with positive denominator and any `0 ≤ lo`. -/
theorem pyInt_clamp_bounds (q : Frac) (lo cap : ℤ) (hq : 0 < q.den) (hlo : 0 ≤ lo) :
    lo ≤ Frac.pyInt (Frac.fmax (Frac.ofInt lo) (Frac.fmin q (Frac.ofInt cap))) ∧
    Frac.pyInt (Frac.fmax (Frac.ofInt lo) (Frac.fmin q (Frac.ofInt cap))) ≤ max lo cap := by
  have hMden : 0 < (Frac.fmin q (Frac.ofInt cap)).den := by
    unfold Frac.fmin
    split_ifs
    · exact hq
    · simp
  by_cases hle : Frac.ble (Frac.fmin q (Frac.ofInt cap)) (Frac.ofInt lo)
  · have hmaxlo :
        Frac.fmax (Frac.ofInt lo) (Frac.fmin q (Frac.ofInt cap)) = Frac.ofInt lo := by
      unfold Frac.fmax
      rw [if_pos hle]
    rw [hmaxlo, Frac.pyInt_ofInt]
    exact ⟨le_refl lo, le_max_left lo cap⟩
  · have hmaxm :
        Frac.fmax (Frac.ofInt lo) (Frac.fmin q (Frac.ofInt cap)) = Frac.fmin q (Frac.ofInt cap) := by
      unfold Frac.fmax
      rw [if_neg hle]
    have hlt : lo * (Frac.fmin q (Frac.ofInt cap)).den < (Frac.fmin q (Frac.ofInt cap)).num := by
      unfold Frac.ble at hle
      simp only [decide_eq_true_eq, not_le, Frac.ofInt_num, Frac.ofInt_den, mul_one,
        one_mul] at hle
      exact hle
    have hnum : 0 ≤ (Frac.fmin q (Frac.ofInt cap)).num :=
      le_of_lt (lt_of_le_of_lt (mul_nonneg hlo (le_of_lt hMden)) hlt)
    rw [hmaxm, Frac.pyInt_of_nonneg _ hMden hnum]
    constructor
    · exact (Int.le_ediv_iff_mul_le hMden).2 (le_of_lt hlt)
    · refine le_trans ?_ (le_max_right lo cap)
      unfold Frac.fmin at hMden ⊢
      split_ifs at hMden ⊢ with hbc
      · unfold Frac.ble at hbc
        simp only [decide_eq_true_eq, Frac.ofInt_num, Frac.ofInt_den, mul_one, one_mul] at hbc
        calc q.num / q.den ≤ (cap * q.den) / q.den := Int.ediv_le_ediv hMden hbc
          _ = cap := Int.mul_ediv_cancel cap (ne_of_gt hMden)
      · simp [Int.ediv_one]

set_option maxHeartbeats 1000000 in
/-- The roll's denominator stays positive when the jitter's is. -/
theorem damageRoll_den_pos (now : ℤ) (b : Boss) (faction : String) (u : Frac)
    (hu : 0 < u.den) : 0 < (damageRoll now b faction u).1.den := by
  unfold damageRoll _weakness_bonus_pct
  split_ifs <;>
    (dsimp only [Frac.mul, Frac.add, Frac.ofInt, WEAKNESS_BONUS_PCT,
       THORNED_REND_BONUS_PCT, MISTVEIL_AMBUSH_BONUS, BASE_DMG_PCT]) <;>
    split_ifs <;>
    (dsimp only [Frac.mul, Frac.add]) <;>
    omega

/-- C3: the claim states that `compute_damage` clamps into
`[MIN_ABS, MAX_PCT * max_hp]` and returns 35 in the weakness scenario.
Counterexample: with `max_hp = 1000`, a weakness-matching attacker, and the
random base forced to 50 (`u = 25/4`, so the pre-clamp roll is `50·1.2 = 60`),
the cap is `int(1000·0.035) = 35` but the returned damage is `100`
(`MIN_HIT_ABS`), which is not 35 and lies outside `[100, 35]`. -/
theorem c3_counterexample :
    (compute_damage 0 weaknessBoss ("gilded") ⟨25, 4⟩).1 = 100 ∧
    damageCap (damageAnchor weaknessBoss) = 35 ∧
    ¬ ((compute_damage 0 weaknessBoss ("gilded") ⟨25, 4⟩).1 ≤
        damageCap (damageAnchor weaknessBoss)) := by
  refine ⟨by decide, by decide, ?_⟩
  intro h
  have h1 : (compute_damage 0 weaknessBoss ("gilded") ⟨25, 4⟩).1 = 100 := by decide
  have h2 : damageCap (damageAnchor weaknessBoss) = 35 := by decide
  rw [h1, h2] at h
  omega

/-- C3 (amended): `compute_damage` returns
`int(max(MIN_HIT_ABS, min(base, max_cap)))` — the `MIN_HIT_ABS = 100` floor
is applied after the cap and takes precedence when the cap is smaller — so
the result always lies in `[MIN_HIT_ABS, max MIN_HIT_ABS max_cap]`; in the
weakness scenario with `max_hp = 1000` (cap 35) the damage is 100, not 35. -/
theorem spec_c3 (now : ℤ) (b : Boss) (faction : String) (u : Frac) (hu : 0 < u.den) :
    MIN_HIT_ABS ≤ (compute_damage now b faction u).1 ∧
    (compute_damage now b faction u).1 ≤ max MIN_HIT_ABS (damageCap (damageAnchor b)) := by
  have hden := damageRoll_den_pos now b faction u hu
  have h := pyInt_clamp_bounds (damageRoll now b faction u).1 MIN_HIT_ABS
    (damageCap (damageAnchor b)) hden (by norm_num [MIN_HIT_ABS])
  unfold compute_damage
  exact h

/-- C3 witness: the amended bounds at the concrete weakness scenario. -/
theorem c3_witness :
    MIN_HIT_ABS ≤ (compute_damage 0 weaknessBoss ("gilded") ⟨25, 4⟩).1 ∧
    (compute_damage 0 weaknessBoss ("gilded") ⟨25, 4⟩).1 ≤
      max MIN_HIT_ABS (damageCap (damageAnchor weaknessBoss)) :=
  spec_c3 0 weaknessBoss ("gilded") ⟨25, 4⟩ (by decide)

theorem hasCritEffect_append (xs ys : List String) :
    hasCritEffect (xs ++ ys) = (hasCritEffect xs || hasCritEffect ys) := by
  simp [hasCritEffect, List.any_append]

/-- C6: the claim quantifies over every attacker whose faction is not the
counter-faction (`verdant`) and asserts `shield.hp = 30` after a raw 100 hit
on an 80-hp Bramble shield.  Counterexample: a `thorned` attacker is not the
counter-faction, yet its Rend passive chews `round(50·0.15) = 8` extra shield
hp, so the shield drops to 22 (total hp reduction 58), not 30. -/
theorem c6_counterexample :
    (_apply_shield 0 (brambleBoss 80) 100 ("thorned") []).1.2.2.1 = 58 ∧
    ((_apply_shield 0 (brambleBoss 80) 100 ("thorned") []).2.1.shield.map Shield.hp)
      = some 22 ∧
    ¬ (((_apply_shield 0 (brambleBoss 80) 100 ("thorned") []).2.1.shield.map Shield.hp)
      = some 30) := by decide

/-- C6 (amended): for a Bramble shield and an attacker whose faction is
neither the counter-faction (`verdant`) nor `thorned` (whose Rend passive
chews extra shield hp), with no critical-hit effect tag: a raw 100 hit is
mitigated to 50; at shield hp 80 the shield absorbs `min(50,80) = 50`,
leaving hp 30 and 0 boss damage, not broken; at shield hp 10 it absorbs 10,
the leftover 40 passes to the boss, the shield is cleared, `broken = true`,
and the caller's Guard-Break buff is installed for 30 seconds. -/
theorem spec_c6 (now : ℤ) (faction : String) (effects : List String)
    (h1 : faction ≠ "verdant") (h2 : faction ≠ "thorned")
    (h3 : hasCritEffect effects = false) :
    ((_apply_shield now (brambleBoss 80) 100 faction effects).1.1 = 0 ∧
     (_apply_shield now (brambleBoss 80) 100 faction effects).1.2.2.1 = 50 ∧
     (_apply_shield now (brambleBoss 80) 100 faction effects).1.2.2.2 = false ∧
     ((_apply_shield now (brambleBoss 80) 100 faction effects).2.1.shield.map Shield.hp)
       = some 30) ∧
    ((_apply_shield now (brambleBoss 10) 100 faction effects).1.1 = 40 ∧
     (_apply_shield now (brambleBoss 10) 100 faction effects).1.2.2.1 = 10 ∧
     (_apply_shield now (brambleBoss 10) 100 faction effects).1.2.2.2 = true ∧
     (_apply_shield now (brambleBoss 10) 100 faction effects).2.1.shield = none ∧
     (_set_buff now ((_apply_shield now (brambleBoss 10) 100 faction effects).2.1)
        .guardBreak 30).buffs.guard_break_until = some (now + 30)) := by
  have hc : hasCritEffect (effects ++ ["Bramble thorns −50%"]) = false := by
    rw [hasCritEffect_append, h3]
    decide
  constructor
  · simp [_apply_shield, _apply_shield_hit, _shield_hit_core, _shield_active, brambleBoss,
      _set_buff, h1, h2, hc, Frac.pyInt, Frac.mul, Frac.ofInt, Frac.blt, Frac.pyRound]
  · simp [_apply_shield, _apply_shield_hit, _shield_hit_core, _shield_active, brambleBoss,
      _set_buff, h1, h2, hc, Frac.pyInt, Frac.mul, Frac.ofInt, Frac.blt, Frac.pyRound]

/-- C6 witness: the amended scenario instantiated with a `gilded` attacker
and an empty effects list. -/
theorem c6_witness :
    ((_apply_shield 5 (brambleBoss 80) 100 ("gilded") []).1.1 = 0 ∧
     (_apply_shield 5 (brambleBoss 80) 100 ("gilded") []).1.2.2.1 = 50 ∧
     (_apply_shield 5 (brambleBoss 80) 100 ("gilded") []).1.2.2.2 = false ∧
     ((_apply_shield 5 (brambleBoss 80) 100 ("gilded") []).2.1.shield.map Shield.hp)
       = some 30) ∧
    ((_apply_shield 5 (brambleBoss 10) 100 ("gilded") []).1.1 = 40 ∧
     (_apply_shield 5 (brambleBoss 10) 100 ("gilded") []).1.2.2.1 = 10 ∧
     (_apply_shield 5 (brambleBoss 10) 100 ("gilded") []).1.2.2.2 = true ∧
     (_apply_shield 5 (brambleBoss 10) 100 ("gilded") []).2.1.shield = none ∧
     (_set_buff 5 ((_apply_shield 5 (brambleBoss 10) 100 ("gilded") []).2.1)
        .guardBreak 30).buffs.guard_break_until = some (5 + 30)) :=
  spec_c6 5 ("gilded") [] (by decide) (by decide) (by decide)

/-- Installing the Guard-Break buff after an attack (`boss.py`:
`if broken: _set_buff(b, "guard_break_until", 30)`): sets the expiry to
`now + 30` exactly when the shield broke, otherwise leaves it untouched. -/
theorem buff_install (now : ℤ) (bb : Boss) (c : Bool) :
    (if c then _set_buff now bb .guardBreak 30 else bb).buffs.guard_break_until =
      if c then some (now + 30) else bb.buffs.guard_break_until := by
  cases c <;> simp [_set_buff]

/-- `_shield_active` returns the boss with its shield field equal to the
returned option (cleared or normalized in place). -/
theorem shield_active_shield_eq (now : ℤ) (b : Boss) :
    (_shield_active now b).2.shield = (_shield_active now b).1 := by
  unfold _shield_active
  cases b.shield with
  | none => rfl
  | some s =>
    dsimp only
    split_ifs <;> rfl

/-- When `_shield_active` returns a shield, it is the stored one (with
normalized `max_hp`), and its hp is positive. -/
theorem shield_active_some (now : ℤ) (b : Boss) (s : Shield)
    (h : (_shield_active now b).1 = some s) :
    ∃ s₀, b.shield = some s₀ ∧ s.hp = s₀.hp ∧ 0 < s.hp := by
  unfold _shield_active at h
  cases hsh : b.shield with
  | none => rw [hsh] at h; simp at h
  | some s₀ =>
    rw [hsh] at h
    dsimp only at h
    split_ifs at h with h1 h2
    dsimp only at h
    rw [Option.some.injEq] at h
    exact ⟨s₀, rfl, by rw [← h], by rw [← h]; exact not_le.mp h2⟩

/-- The core reduces the shield by at most `max 0 s.hp` (`total_absorb` is a
`min` against the prior hp). -/
theorem shield_hit_core_absorb_le (s : Shield) (dmg0 : ℤ) (faction : String)
    (effects0 : List String) :
    (_shield_hit_core s dmg0 faction effects0).absorbed ≤ max 0 s.hp := by
  unfold _shield_hit_core
  dsimp only
  exact min_le_left _ _

/-- The core's surviving shield hp is never negative. -/
theorem shield_hit_core_newHp_nonneg (s : Shield) (dmg0 : ℤ) (faction : String)
    (effects0 : List String) :
    0 ≤ (_shield_hit_core s dmg0 faction effects0).newHp := by
  unfold _shield_hit_core
  dsimp only
  exact le_max_left _ _

/-- The active-hit body reduces the shield by at most `max 0 s.hp`. -/
theorem apply_hit_absorb_le (b₁ : Boss) (s : Shield) (dmg0 : ℤ) (faction : String)
    (effects0 : List String) :
    (_apply_shield_hit b₁ s dmg0 faction effects0).1.2.2.1 ≤ max 0 s.hp := by
  unfold _apply_shield_hit
  dsimp only
  exact shield_hit_core_absorb_le s dmg0 faction effects0

/-- The active-hit body never leaves a negative shield hp. -/
theorem apply_hit_hp_nonneg (b₁ : Boss) (s : Shield) (dmg0 : ℤ) (faction : String)
    (effects0 : List String) :
    0 ≤ (((_apply_shield_hit b₁ s dmg0 faction effects0).2.1.shield.map Shield.hp).getD 0) := by
  unfold _apply_shield_hit
  dsimp only
  split
  · simp
  · simpa using shield_hit_core_newHp_nonneg s dmg0 faction effects0

/-- If the active-hit body reports a break, the shield is cleared. -/
theorem apply_hit_broken_clears (b₁ : Boss) (s : Shield) (dmg0 : ℤ) (faction : String)
    (effects0 : List String)
    (h : (_apply_shield_hit b₁ s dmg0 faction effects0).1.2.2.2 = true) :
    (_apply_shield_hit b₁ s dmg0 faction effects0).2.1.shield = none := by
  unfold _apply_shield_hit at h ⊢
  dsimp only at h ⊢
  rw [if_pos h]

/-- `_apply_shield` reduces the shield by at most its prior (nonnegative) hp. -/
theorem apply_shield_absorb_le (now : ℤ) (b : Boss) (dmg : ℤ) (faction : String)
    (effects : List String) :
    (_apply_shield now b dmg faction effects).1.2.2.1 ≤
      ((b.shield.map fun s => max 0 s.hp).getD 0) := by
  unfold _apply_shield
  rcases hsa : _shield_active now b with ⟨o, b₁⟩
  cases o with
  | none =>
    dsimp only
    cases hb : b.shield <;> simp [hb]
  | some s =>
    dsimp only
    obtain ⟨s₀, hb₀, hhp, hpos⟩ := shield_active_some now b s (by rw [hsa])
    rw [hb₀]
    have hred : (((some s₀).map fun s => max 0 s.hp).getD 0) = max 0 s₀.hp := rfl
    rw [hred, ← hhp]
    exact apply_hit_absorb_le b₁ s dmg faction effects

/-- After `_apply_shield` the stored shield hp is never negative. -/
theorem apply_shield_hp_nonneg (now : ℤ) (b : Boss) (dmg : ℤ) (faction : String)
    (effects : List String) :
    0 ≤ (((_apply_shield now b dmg faction effects).2.1.shield.map Shield.hp).getD 0) := by
  unfold _apply_shield
  rcases hsa : _shield_active now b with ⟨o, b₁⟩
  have hbsh : b₁.shield = o := by
    have h := shield_active_shield_eq now b
    rw [hsa] at h
    exact h
  cases o with
  | none =>
    dsimp only
    simp [hbsh]
  | some s =>
    dsimp only
    exact apply_hit_hp_nonneg b₁ s dmg faction effects

/-- If `_apply_shield` reports a break, it also cleared the shield. -/
theorem apply_shield_broken_clears (now : ℤ) (b : Boss) (dmg : ℤ) (faction : String)
    (effects : List String)
    (h : (_apply_shield now b dmg faction effects).1.2.2.2 = true) :
    (_apply_shield now b dmg faction effects).2.1.shield = none := by
  unfold _apply_shield at h ⊢
  rcases hsa : _shield_active now b with ⟨o, b₁⟩
  rw [hsa] at h
  cases o with
  | none =>
    simp at h
  | some s =>
    dsimp only at h ⊢
    exact apply_hit_broken_clears b₁ s dmg faction effects h

/-- C7: for every boss state, incoming damage, attacker faction and effects
list, `_apply_shield` never leaves a negative shield hp, never reduces the
shield by more than its prior hp (`total_absorb = min(prior, …)`), clears the
shield exactly once on break (`broken = true` forces `shield = None`), and
the caller's post-attack step starts exactly one 30-second Guard-Break
window iff the shield broke, leaving the buff untouched otherwise. -/
theorem spec_c7 (now : ℤ) (b : Boss) (dmg : ℤ) (faction : String) (effects : List String) :
    (_apply_shield now b dmg faction effects).1.2.2.1 ≤
        ((b.shield.map fun s => max 0 s.hp).getD 0) ∧
    0 ≤ (((_apply_shield now b dmg faction effects).2.1.shield.map Shield.hp).getD 0) ∧
    ((_apply_shield now b dmg faction effects).1.2.2.2 = true →
      (_apply_shield now b dmg faction effects).2.1.shield = none) ∧
    ((if (_apply_shield now b dmg faction effects).1.2.2.2 then
        _set_buff now (_apply_shield now b dmg faction effects).2.1 .guardBreak 30
      else (_apply_shield now b dmg faction effects).2.1).buffs.guard_break_until =
      if (_apply_shield now b dmg faction effects).1.2.2.2 then some (now + 30)
      else (_apply_shield now b dmg faction effects).2.1.buffs.guard_break_until) :=
  ⟨apply_shield_absorb_le now b dmg faction effects,
   apply_shield_hp_nonneg now b dmg faction effects,
   fun h => apply_shield_broken_clears now b dmg faction effects h,
   buff_install now _ _⟩

/-- C7 witness: the invariants at a concrete broken-shield scenario
(Bramble shield at 10 hp, raw 100 damage from a `gilded` attacker). -/
theorem c7_witness :
    (_apply_shield 3 (brambleBoss 10) 100 ("gilded") []).1.2.2.1 ≤
        (((brambleBoss 10).shield.map fun s => max 0 s.hp).getD 0) ∧
    0 ≤ (((_apply_shield 3 (brambleBoss 10) 100 ("gilded") []).2.1.shield.map Shield.hp).getD 0) ∧
    ((_apply_shield 3 (brambleBoss 10) 100 ("gilded") []).1.2.2.2 = true →
      (_apply_shield 3 (brambleBoss 10) 100 ("gilded") []).2.1.shield = none) ∧
    ((if (_apply_shield 3 (brambleBoss 10) 100 ("gilded") []).1.2.2.2 then
        _set_buff 3 (_apply_shield 3 (brambleBoss 10) 100 ("gilded") []).2.1 .guardBreak 30
      else (_apply_shield 3 (brambleBoss 10) 100 ("gilded") []).2.1).buffs.guard_break_until =
      if (_apply_shield 3 (brambleBoss 10) 100 ("gilded") []).1.2.2.2 then some (3 + 30)
      else (_apply_shield 3 (brambleBoss 10) 100 ("gilded") []).2.1.buffs.guard_break_until) :=
  spec_c7 3 (brambleBoss 10) 100 ("gilded") []

/-! ## Reward engine (`BossCog._handle_kill` in `cogs/boss.py`)

`boss.py` rebinds the reward constants via
`globals().get("BOSS_REWARD_PER_PLAYER", 1000)` (and likewise
`BOSS_REWARD_MIN` / `BOSS_REWARD_MAX`); `settings.py` defines only the
un-prefixed `REWARD_*` names, so the lookups miss and the fallbacks
1000 / 1800 / 7500 are the effective values. -/

def REWARD_PER_PLAYER : ℤ := 1000

def REWARD_MIN : ℤ := 1800

def REWARD_MAX : ℤ := 7500

/-- `sum(int(v) for v in tally.values())`. -/
def tallyTotal (t : List (String × ℤ)) : ℤ := (t.map Prod.snd).sum

/-- `total = sum(...) or 1`. -/
def killTotal (t : List (String × ℤ)) : ℤ :=
  if tallyTotal t = 0 then 1 else tallyTotal t

/-- `participants = max(1, len(tally))`. -/
def killParticipants (t : List (String × ℤ)) : ℤ := max 1 t.length

/-- `pool = max(REWARD_PER_PLAYER * participants, REWARD_MIN * participants)`. -/
def killPool (t : List (String × ℤ)) : ℤ :=
  max (REWARD_PER_PLAYER * killParticipants t) (REWARD_MIN * killParticipants t)

/-- One participant's payout:
`max(REWARD_MIN, min(REWARD_MAX, int(pool * (dmg / total))))`. -/
def killReward (pool total d : ℤ) : ℤ :=
  max REWARD_MIN (min REWARD_MAX (Frac.pyInt (Frac.mul (Frac.ofInt pool) ⟨d, total⟩)))

/-- The gold payouts `_handle_kill` grants, iterating the tally. -/
def killPayouts (t : List (String × ℤ)) : List (String × ℤ) :=
  t.map fun p => (p.1, killReward (killPool t) (killTotal t) p.2)

/-- The "Reset fight state" block of `_handle_kill`: `hp = 0`,
`last_actions = []`, `shield = None` (the per-user `tally` is left as is;
only the legacy per-faction aggregates are cleared, which the model omits). -/
def handleKillReset (b : Boss) : Boss :=
  { b with hp := 0, last_actions := [], shield := none }

/-- `_handle_kill(b)`: computes the payouts from the tally first, then
resets the fight state; returns `(payouts, reset boss)`. -/
def _handle_kill (b : Boss) : List (String × ℤ) × Boss :=
  (killPayouts b.tally, handleKillReset b)

example : killPool [("a", 600), ("b", 300), ("c", 100)] = 5400 := by decide
example :
    killPayouts [("a", 600), ("b", 300), ("c", 100)] =
      [("a", 3240), ("b", 1800), ("c", 1800)] := by decide

/-- A defeated boss (hp 0) with one participant left in the tally. -/
def killScenarioBoss : Boss :=
  { name := "Boss", hp := 0, max_hp := 1000, phase := 2, weakness := "gilded",
    shield := none, buffs := { guard_break_until := none, overbloom_until := none },
    tally := [("u1", 100)], last_actions := [], hasPhase2Image := false }

/-- C1: the claim states that the kill handler resets
`hp, tally, log, shield` before computing payouts, so a second invocation on
a defeated boss sees an empty tally and grants no rewards.  Counterexample:
`_handle_kill` never clears the tally (and pays before resetting), so after
one invocation the tally still holds `u1` and a second invocation pays
`u1` the full 1800 again rather than granting nothing. -/
theorem c1_counterexample :
    (_handle_kill killScenarioBoss).2.tally ≠ [] ∧
    (_handle_kill ((_handle_kill killScenarioBoss).2)).1 = [("u1", 1800)] ∧
    (_handle_kill ((_handle_kill killScenarioBoss).2)).1 ≠ [] := by
  refine ⟨by decide, by decide, by decide⟩

/-- C1 (amended): `_handle_kill` computes the payouts from the tally first
and only then resets `hp = 0`, `last_actions = []`, `shield = None`,
leaving the tally untouched (it is kept for the trophy-award commands); a
second invocation therefore pays the same participants identically again.
Double payout is instead prevented upstream in `boss_attack`: under the
lock, an attacker that reloads the boss and finds `hp ≤ 0` is refunded and
returns without invoking the kill handler. -/
theorem spec_c1 (b : Boss) :
    (_handle_kill b).2.hp = 0 ∧
    (_handle_kill b).2.last_actions = [] ∧
    (_handle_kill b).2.shield = none ∧
    (_handle_kill b).2.tally = b.tally ∧
    (_handle_kill ((_handle_kill b).2)).1 = (_handle_kill b).1 :=
  ⟨rfl, rfl, rfl, rfl, rfl⟩

/-- C2: the claim states the payout pool and per-participant clamp formulas
and that the sum of paid rewards never exceeds the pool.  Counterexample:
for damages {600, 300, 100} the pool is `max(1000·3, 1800·3) = 5400` and the
rewards are 3240 / 1800 / 1800 (the floor lifts the small shares), summing
to 6840 > 5400. -/
theorem c2_counterexample :
    killPool [("a", 600), ("b", 300), ("c", 100)] = 5400 ∧
    killPayouts [("a", 600), ("b", 300), ("c", 100)] =
      [("a", 3240), ("b", 1800), ("c", 1800)] ∧
    ((killPayouts [("a", 600), ("b", 300), ("c", 100)]).map Prod.snd).sum = 6840 ∧
    ¬ (((killPayouts [("a", 600), ("b", 300), ("c", 100)]).map Prod.snd).sum ≤
        killPool [("a", 600), ("b", 300), ("c", 100)]) := by
  refine ⟨by decide, by decide, by decide, by decide⟩

/-- C2 (amended): for every non-empty tally of nonnegative damages, the pool
is `max(perPlayer·count, min·count)` and each participant's reward is
`clamp(⌊pool·dmg/total⌋, floor, cap)`, but the floor clamp can push the paid
sum above the pool (as for {600, 300, 100}); the sum is instead bounded by
`cap · count`. -/
theorem spec_c2 (t : List (String × ℤ)) (hne : t ≠ []) (hnn : ∀ p ∈ t, 0 ≤ p.2) :
    killPool t = max (REWARD_PER_PLAYER * t.length) (REWARD_MIN * t.length) ∧
    killPayouts t = (t.map fun p => (p.1,
      max REWARD_MIN (min REWARD_MAX ((killPool t * p.2) / killTotal t)))) ∧
    ((killPayouts t).map Prod.snd).sum ≤ REWARD_MAX * t.length := by
  have hlen : (1 : ℤ) ≤ (t.length : ℤ) := by
    have h0 := List.length_pos.mpr hne
    omega
  have hpart : killParticipants t = (t.length : ℤ) := by
    unfold killParticipants
    omega
  have htot : 0 < killTotal t := by
    have hs : 0 ≤ tallyTotal t := by
      unfold tallyTotal
      refine List.sum_nonneg ?_
      intro x hx
      obtain ⟨p, hp, rfl⟩ := List.mem_map.mp hx
      exact hnn p hp
    unfold killTotal
    split_ifs with h0
    · norm_num
    · omega
  have hpool : 0 ≤ killPool t := by
    unfold killPool REWARD_PER_PLAYER REWARD_MIN
    rw [hpart]
    have : (0 : ℤ) ≤ 1800 * (t.length : ℤ) := by omega
    omega
  refine ⟨?_, ?_, ?_⟩
  · unfold killPool
    rw [hpart]
  · unfold killPayouts
    refine List.map_congr_left ?_
    intro p hp
    unfold killReward
    have hd := hnn p hp
    have hnum : 0 ≤ (Frac.mul (Frac.ofInt (killPool t)) ⟨p.2, killTotal t⟩).num := by
      simp only [Frac.mul, Frac.ofInt]
      exact mul_nonneg hpool hd
    have hden : 0 < (Frac.mul (Frac.ofInt (killPool t)) ⟨p.2, killTotal t⟩).den := by
      simp only [Frac.mul, Frac.ofInt]
      omega
    rw [Frac.pyInt_of_nonneg _ hden hnum]
    simp [Frac.mul, Frac.ofInt]
  · have hb : ∀ x ∈ (killPayouts t).map Prod.snd, x ≤ REWARD_MAX := by
      intro x hx
      obtain ⟨q, hq, rfl⟩ := List.mem_map.mp hx
      unfold killPayouts at hq
      obtain ⟨p, hp, rfl⟩ := List.mem_map.mp hq
      refine max_le ?_ (min_le_left _ _)
      norm_num [REWARD_MIN, REWARD_MAX]
    calc ((killPayouts t).map Prod.snd).sum
        ≤ ((killPayouts t).map Prod.snd).length • REWARD_MAX :=
          List.sum_le_card_nsmul _ _ hb
      _ = REWARD_MAX * t.length := by
          simp [killPayouts, nsmul_eq_mul, mul_comm]

/-- C2 witness: the amended statement at the {600, 300, 100} tally. -/
theorem c2_witness :
    killPool [("a", 600), ("b", 300), ("c", 100)] =
      max (REWARD_PER_PLAYER * ([("a", 600), ("b", 300), ("c", 100)] :
        List (String × ℤ)).length)
        (REWARD_MIN * ([("a", 600), ("b", 300), ("c", 100)] : List (String × ℤ)).length) ∧
    killPayouts [("a", 600), ("b", 300), ("c", 100)] =
      (([("a", 600), ("b", 300), ("c", 100)] : List (String × ℤ)).map fun p => (p.1,
        max REWARD_MIN (min REWARD_MAX
          ((killPool [("a", 600), ("b", 300), ("c", 100)] * p.2) /
            killTotal [("a", 600), ("b", 300), ("c", 100)])))) ∧
    ((killPayouts [("a", 600), ("b", 300), ("c", 100)]).map Prod.snd).sum ≤
      REWARD_MAX * ([("a", 600), ("b", 300), ("c", 100)] : List (String × ℤ)).length :=
  spec_c2 [("a", 600), ("b", 300), ("c", 100)] (by decide) (by decide)

/-! ## Attack path (`BossCog.boss_attack` in `cogs/boss.py`), locked section

Everything from `async with boss_state_lock:` to `save_boss(b)`.  The boss
passed in stands for the `load_boss()` reload under the lock; the energy
profile is the attacker's ledger record.  The phase-2 auto shield spawn is
dead code in this file (the `globals().get("BOSS_PHASE2_SPAWNS_SHIELD", 0)`
lookup misses — `settings.py` exports only the un-prefixed
`PHASE2_SPAWNS_SHIELD` — so the flag is 0) and is therefore omitted.
`COUNT_SHIELD_DAMAGE_IN_TALLY` resolves to `settings.py`'s default `True`
via the star import. -/

def COUNT_SHIELD_DAMAGE_IN_TALLY : Bool := true

/-- `tally[uid] = int(tally.get(uid, 0)) + credit` on the dict modelled as an
association list: update the existing entry in place or append a new one. -/
def tallyAdd (t : List (String × ℤ)) (uid : String) (credit : ℤ) : List (String × ℤ) :=
  match t with
  | [] => [(uid, credit)]
  | (k, v) :: rest =>
    if k = uid then (k, v + credit) :: rest else (k, v) :: tallyAdd rest uid credit

/-- `l[-n:]`. -/
def lastN {α : Type} (n : ℕ) (l : List α) : List α := l.drop (l.length - n)

inductive AttackOutcome
  | tooLate
  | hit (dmgToBoss : ℤ) (overkill : ℤ) (broken : Bool) (phaseSwitched : Bool)
  deriving Repr, DecidableEq

/-- The locked section of `boss_attack`: reload re-check, damage roll,
shield application, overkill clamp, hp decrement, phase switch, tally
credit, bounded action log append, Guard-Break install.  If the boss died
between the energy spend and lock acquisition (`hp ≤ 0` on reload), one
energy is refunded via `_add_energy` and nothing on the boss is mutated. -/
def boss_attack_locked (now : ℤ) (uid userName faction : String) (u : Frac)
    (b : Boss) (led : EnergyProfile) : AttackOutcome × Boss × EnergyProfile :=
  if b.hp ≤ 0 then
    (.tooLate, b, (_add_energy now led 1).2)
  else
    let dmgEffects := compute_damage now b faction u
    let sBefore := _shield_active now b
    let afterShield :=
      if (sBefore.1).isSome then
        _apply_shield now sBefore.2 dmgEffects.1 faction dmgEffects.2
      else ((dmgEffects.1, none, 0, false), sBefore.2, dmgEffects.2)
    let dmgToBoss₀ := afterShield.1.1
    let absorbedTotal := afterShield.1.2.2.1
    let broken := afterShield.1.2.2.2
    let b₁ := afterShield.2.1
    let hpBefore := b₁.hp
    let actual := max 0 (min dmgToBoss₀ hpBefore)
    let overkill := max 0 (dmgToBoss₀ - actual)
    let b₂ := { b₁ with hp := max 0 (hpBefore - actual) }
    let mx := b₂.max_hp
    let phaseAction : BossAction :=
      { ts := now, user := "Phase Shift", user_id := "system", faction := "",
        dmg := 0, effects := ["Boss enrages! Phase 2"] }
    let phaseStep : Boss × Bool :=
      if 0 < mx ∧ b₂.phase = 1 ∧ b₂.hp ≤ mx / 2 ∧ b₂.hasPhase2Image then
        ({ b₂ with
             phase := 2,
             last_actions := lastN 25 (b₂.last_actions ++ [phaseAction]) }, true)
      else (b₂, false)
    let credit := actual + (if COUNT_SHIELD_DAMAGE_IN_TALLY then absorbedTotal else 0)
    let b₄ := { phaseStep.1 with tally := tallyAdd phaseStep.1.tally uid credit }
    let b₅ := { b₄ with last_actions := lastN 25 (b₄.last_actions ++
        [{ ts := now, user := userName, user_id := uid, faction := faction,
           dmg := actual, effects := afterShield.2.2 }]) }
    let b₆ := if broken then _set_buff now b₅ .guardBreak 30 else b₅
    (.hit actual overkill broken phaseStep.2, b₆, led)

/-- C8: after acquiring the lock, the attack path re-validates `hp > 0` on
the reloaded boss; if the boss died between the energy spend and lock
acquisition it returns the "too late" outcome, refunds the spent energy via
`_add_energy(uid, 1)` (restoring the materialized value plus one while below
the cap), and applies no damage, tally or log mutation to the boss. -/
theorem spec_c8 (now : ℤ) (uid userName faction : String) (u : Frac)
    (b : Boss) (led : EnergyProfile) (h : b.hp ≤ 0) :
    boss_attack_locked now uid userName faction u b led =
      (.tooLate, b, (_add_energy now led 1).2) ∧
    (0 ≤ (_materialize now led).1 → (_materialize now led).1 < ENERGY_MAX →
      (_add_energy now led 1).2.energy = (_materialize now led).1 + 1) := by
  constructor
  · unfold boss_attack_locked
    rw [if_pos h]
  · intro h0 hlt
    simp only [ENERGY_MAX] at hlt
    simp only [_add_energy]
    rw [if_neg (by norm_num)]
    simp only [ENERGY_MAX]
    omega

/-- C8 witness: the dead-boss branch at a concrete state (defeated boss,
attacker holding 2 energy). -/
theorem c8_witness :
    boss_attack_locked 50 ("u") ("U") ("gilded") ⟨1, 1⟩ killScenarioBoss ⟨2, 40⟩ =
      (.tooLate, killScenarioBoss, (_add_energy 50 ⟨2, 40⟩ 1).2) ∧
    (0 ≤ (_materialize 50 ⟨2, 40⟩).1 → (_materialize 50 ⟨2, 40⟩).1 < ENERGY_MAX →
      (_add_energy 50 ⟨2, 40⟩ 1).2.energy = (_materialize 50 ⟨2, 40⟩).1 + 1) :=
  spec_c8 50 ("u") ("U") ("gilded") ⟨1, 1⟩ killScenarioBoss ⟨2, 40⟩ (by decide)

/-! ## Serialized concurrent attacks (C10)

`boss_state_lock` (`cogs/worldboss/sync.py`) is a single process-wide
`asyncio.Lock`, so any set of concurrent attacks commits one at a time, in
lock-acquisition order: every interleaving is observationally some sequence
of the locked mutation step.  `applyHitSeq` is that committed step for one
attack — the overkill clamp and hp decrement (`boss.py` lines 488-492) and
the tally credit (lines 522-526) — applied to the post-shield damage. -/

/-- One serialized attack commit: `actual = max(0, min(dmg, hp))`,
`hp = max(0, hp - actual)`, `tally[uid] += actual`. -/
def applyHitSeq (st : ℤ × List (String × ℤ)) (hit : String × ℤ) :
    ℤ × List (String × ℤ) :=
  let actual := max 0 (min hit.2 st.1)
  (max 0 (st.1 - actual), tallyAdd st.2 hit.1 actual)

/-- A whole interleaving of attacks, serialized by the boss lock. -/
def applyAttacks (hp0 : ℤ) (t0 : List (String × ℤ))
    (hits : List (String × ℤ)) : ℤ × List (String × ℤ) :=
  hits.foldl applyHitSeq (hp0, t0)

theorem tallyTotal_tallyAdd (t : List (String × ℤ)) (uid : String) (c : ℤ) :
    tallyTotal (tallyAdd t uid c) = tallyTotal t + c := by
  induction t with
  | nil => simp [tallyAdd, tallyTotal]
  | cons p rest ih =>
    obtain ⟨k, v⟩ := p
    by_cases hk : k = uid
    · simp [tallyAdd, hk, tallyTotal]
      ring
    · simp only [tallyAdd, if_neg hk]
      simp only [tallyTotal, List.map_cons, List.sum_cons] at ih ⊢
      omega

/-- C10: for every interleaving of N concurrent attacks (any commit order of
the post-shield damages, as serialized by the global boss lock), the final
hp is `max(0, initial_hp - Σ damage)`, and the tally absorbs exactly the
total hp actually removed — no attack's hp decrement or tally credit is
lost. -/
theorem spec_c10 (hits : List (String × ℤ)) (hp0 : ℤ) (t0 : List (String × ℤ))
    (hhp : 0 ≤ hp0) (hnn : ∀ h ∈ hits, 0 ≤ h.2) :
    (applyAttacks hp0 t0 hits).1 = max 0 (hp0 - (hits.map Prod.snd).sum) ∧
    tallyTotal (applyAttacks hp0 t0 hits).2 =
      tallyTotal t0 + (hp0 - (applyAttacks hp0 t0 hits).1) := by
  induction hits generalizing hp0 t0 with
  | nil =>
    constructor
    · simp [applyAttacks]
      omega
    · simp [applyAttacks]
  | cons h hs ih =>
    have hh : 0 ≤ h.2 := hnn h (List.mem_cons_self h hs)
    have hrest : ∀ x ∈ hs, 0 ≤ x.2 := fun x hx => hnn x (List.mem_cons_of_mem h hx)
    have hsum : 0 ≤ (hs.map Prod.snd).sum := by
      refine List.sum_nonneg ?_
      intro x hx
      obtain ⟨p, hp, rfl⟩ := List.mem_map.mp hx
      exact hrest p hp
    have hstep : applyAttacks hp0 t0 (h :: hs) =
        applyAttacks (max 0 (hp0 - max 0 (min h.2 hp0)))
          (tallyAdd t0 h.1 (max 0 (min h.2 hp0))) hs := rfl
    have hhp1 : 0 ≤ max 0 (hp0 - max 0 (min h.2 hp0)) := le_max_left _ _
    obtain ⟨ih1, ih2⟩ := ih (max 0 (hp0 - max 0 (min h.2 hp0)))
      (tallyAdd t0 h.1 (max 0 (min h.2 hp0))) hhp1 hrest
    constructor
    · rw [hstep, ih1]
      simp only [List.map_cons, List.sum_cons]
      omega
    · rw [hstep, ih2, tallyTotal_tallyAdd, ih1]
      omega

/-- C10 witness: three attackers dealing 600, 300 and 400 against 1000 hp —
the last hit is clamped, final hp is 0 and the tally holds all 1000 removed
hit points. -/
theorem c10_witness :
    (applyAttacks 1000 [] [("a", 600), ("b", 300), ("c", 400)]).1 =
      max 0 (1000 - (([("a", 600), ("b", 300), ("c", 400)] :
        List (String × ℤ)).map Prod.snd).sum) ∧
    tallyTotal (applyAttacks 1000 [] [("a", 600), ("b", 300), ("c", 400)]).2 =
      tallyTotal [] + (1000 - (applyAttacks 1000 [] [("a", 600), ("b", 300), ("c", 400)]).1) :=
  spec_c10 [("a", 600), ("b", 300), ("c", 400)] 1000 [] (by decide) (by decide)

/-! ## Boss state store (`cogs/worldboss/storage.py`)

`storage.py` imports `_default_boss` and `_ensure_shape` from
`cogs/worldboss/schema.py`, which is not part of the repository snapshot;
those two are modelled from the spec.  A persisted document is a JSON dict;
each field below is `Option`-wrapped to model key presence.  `none` at the
document level models a missing/corrupt/empty file (which `_read_json`
collapses to `{}`, a falsy value). -/

/-- The persisted boss document of §6: hp, max_hp, phase, weakness, shield,
buffs, tally, last_actions, rotate-config, plus the sibling preset catalog
(an opaque key→preset table, modelled as an association list). -/
structure BossDoc where
  hp : Option ℤ
  max_hp : Option ℤ
  phase : Option ℕ
  weakness : Option String
  shield : Option (Option Shield)
  buffs : Option BossBuffs
  tally : Option (List (String × ℤ))
  last_actions : Option (List BossAction)
  rotate : Option (Bool × ℕ)
  catalog : Option (List (String × String))
  deriving Repr, DecidableEq

/-- The empty dict `{}` (missing or corrupt file). -/
def emptyBossDoc : BossDoc :=
  { hp := none, max_hp := none, phase := none, weakness := none, shield := none,
    buffs := none, tally := none, last_actions := none, rotate := none, catalog := none }

/-- Modelled from the spec: `_default_boss` (`schema.py`, absent from the
snapshot) — the default template the store falls back to; all required
boss fields present, no catalog. -/
def _default_boss : BossDoc :=
  { hp := some 0, max_hp := some 1, phase := some 1, weakness := some (""),
    shield := some none, buffs := some { guard_break_until := none, overbloom_until := none },
    tally := some [], last_actions := some [], rotate := some (false, 0), catalog := none }

/-- Modelled from the spec: `_ensure_shape` (`schema.py`, absent from the
snapshot) — "Normalize required keys just in case": every required boss
field is given a default when missing, present values and the catalog are
left untouched. -/
def _ensure_shape (d : BossDoc) : BossDoc :=
  { hp := some (d.hp.getD 0), max_hp := some (d.max_hp.getD 1),
    phase := some (d.phase.getD 1), weakness := some (d.weakness.getD ("")),
    shield := some (d.shield.getD none),
    buffs := some (d.buffs.getD { guard_break_until := none, overbloom_until := none }),
    tally := some (d.tally.getD []), last_actions := some (d.last_actions.getD []),
    rotate := some (d.rotate.getD (false, 0)), catalog := d.catalog }

/-- `load_boss()`: read the file, reshape (`data or _default_boss()`), then
keep the persisted catalog — or `setdefault` it to `{}`. -/
def load_boss (disk : BossDoc) : BossDoc :=
  let boss := _ensure_shape (if disk = emptyBossDoc then _default_boss else disk)
  match disk.catalog with
  | some c => { boss with catalog := some c }
  | none => if (boss.catalog).isSome then boss else { boss with catalog := some [] }

/-- `save_boss(b)`: merge-through the on-disk catalog when the caller's
snapshot lacks one, normalize, and (atomically) write the result. -/
def save_boss (disk : BossDoc) (b : BossDoc) : BossDoc :=
  let out := if (disk.catalog).isSome ∧ b.catalog = none
    then { b with catalog := disk.catalog } else b
  _ensure_shape out

example :
    save_boss emptyBossDoc (load_boss emptyBossDoc) =
      { _default_boss with catalog := some [] } := by decide

/-- C9: `save(load())` is a fixed point modulo catalog passthrough — for any
well-shaped persisted document, loading and saving back writes a document
whose every boss field is unchanged and whose catalog is the persisted one
(defaulted to `{}` when absent, so it is never deleted); and for every
snapshot lacking a catalog, `save_boss` re-reads the on-disk catalog and
injects it into the written document. -/
theorem spec_c9 :
    (∀ d : BossDoc, _ensure_shape d = d →
      (save_boss d (load_boss d)).hp = d.hp ∧
      (save_boss d (load_boss d)).max_hp = d.max_hp ∧
      (save_boss d (load_boss d)).phase = d.phase ∧
      (save_boss d (load_boss d)).weakness = d.weakness ∧
      (save_boss d (load_boss d)).shield = d.shield ∧
      (save_boss d (load_boss d)).buffs = d.buffs ∧
      (save_boss d (load_boss d)).tally = d.tally ∧
      (save_boss d (load_boss d)).last_actions = d.last_actions ∧
      (save_boss d (load_boss d)).rotate = d.rotate ∧
      (save_boss d (load_boss d)).catalog = some ((d.catalog).getD [])) ∧
    (∀ (b d : BossDoc) (c : List (String × String)), b.catalog = none →
      d.catalog = some c → (save_boss d b).catalog = some c) := by
  constructor
  · intro d h
    obtain ⟨ohp, omx, oph, ow, osh, obf, ot, ola, orot, ocat⟩ := d
    simp only [_ensure_shape, BossDoc.mk.injEq] at h
    obtain ⟨h1, h2, h3, h4, h5, h6, h7, h8, h9, -⟩ := h
    have hne : (⟨ohp, omx, oph, ow, osh, obf, ot, ola, orot, ocat⟩ : BossDoc) ≠
        emptyBossDoc := by
      intro he
      injection he with e1 e2 e3 e4 e5 e6 e7 e8 e9 e10
      rw [e1] at h1
      exact Option.noConfusion h1
    unfold save_boss load_boss
    rw [if_neg hne]
    cases ocat with
    | some c =>
      simp [_ensure_shape, h1, h2, h3, h4, h5, h6, h7, h8, h9]
    | none =>
      simp [_ensure_shape, h1, h2, h3, h4, h5, h6, h7, h8, h9]
  · intro b d c hb hd
    unfold save_boss
    rw [if_pos ⟨by rw [hd]; rfl, hb⟩, hd]
    rfl

/-- C9 witness: a concrete well-shaped document without a catalog survives
the round trip (catalog defaulted to `{}`), and an explicit catalog is
injected into a catalog-less snapshot. -/
theorem c9_witness :
    ((save_boss _default_boss (load_boss _default_boss)).hp = _default_boss.hp ∧
     (save_boss _default_boss (load_boss _default_boss)).max_hp = _default_boss.max_hp ∧
     (save_boss _default_boss (load_boss _default_boss)).phase = _default_boss.phase ∧
     (save_boss _default_boss (load_boss _default_boss)).weakness = _default_boss.weakness ∧
     (save_boss _default_boss (load_boss _default_boss)).shield = _default_boss.shield ∧
     (save_boss _default_boss (load_boss _default_boss)).buffs = _default_boss.buffs ∧
     (save_boss _default_boss (load_boss _default_boss)).tally = _default_boss.tally ∧
     (save_boss _default_boss (load_boss _default_boss)).last_actions =
       _default_boss.last_actions ∧
     (save_boss _default_boss (load_boss _default_boss)).rotate = _default_boss.rotate ∧
     (save_boss _default_boss (load_boss _default_boss)).catalog =
       some ((_default_boss.catalog).getD [])) ∧
    (save_boss { _default_boss with catalog := some [(("k" : String), ("v" : String))] }
        _default_boss).catalog = some [(("k" : String), ("v" : String))] :=
  ⟨(spec_c9.1 _default_boss (by decide)),
   spec_c9.2 _default_boss
     { _default_boss with catalog := some [(("k" : String), ("v" : String))] }
     [(("k" : String), ("v" : String))] (by decide) (by decide)⟩
